import Mathlib

/-!
# Verification of the test-telemetry pipeline

A shallow embedding, in Lean 4, of the cross-process telemetry pipeline of the
`playwright-framework` repository: per-worker network statistics
(`src/utils/reporters/network-monitor/*`), interaction/heatmap telemetry
(`src/utils/reporters/heatmap/*`, `src/decorators/interaction.ts`,
`src/utils/screenshot.ts`) and the sandboxed filesystem layer
(`src/utils/fs/fsHelpers.ts`).

JavaScript `Map`s and plain objects are embedded as association lists
(`List (κ × α)`) whose entry order models JS insertion order; JS numbers are
embedded as `ℚ` where fractional values occur (coordinates) and as `Nat` for
counters and HTTP status codes.  Mutation of a looked-up entry is embedded as
an in-place functional update of the first entry with the given key
(`aupdate`), which coincides with JS `Map`/object semantics because those
containers hold at most one entry per key.
-/

set_option maxHeartbeats 1000000

/-- First value stored under key `k`, i.e. JS `map.get(k)` / `obj[k]`. -/
def alookup {κ α : Type} [DecidableEq κ] : List (κ × α) → κ → Option α
  | [], _ => none
  | (k', v) :: rest, k => if k' = k then some v else alookup rest k

/-- Replace (in place) the value of the first entry with key `k`, i.e. the JS
mutation `map.get(k).field = ...` / `obj[k] = ...` on an existing entry. -/
def aupdate {κ α : Type} [DecidableEq κ] : List (κ × α) → κ → (α → α) → List (κ × α)
  | [], _, _ => []
  | (k', v) :: rest, k, f => if k' = k then (k', f v) :: rest else (k', v) :: aupdate rest k f

/-- JS get-or-create-then-mutate on a keyed container: if `k` is absent, a
default `d` is created, inserted at the end (JS insertion order) and then the
mutation `f` is applied; if `k` is present its value is mutated by `f`. -/
def upsert {κ α : Type} [DecidableEq κ] (m : List (κ × α)) (k : κ) (d : α) (f : α → α) :
    List (κ × α) :=
  match alookup m k with
  | none => m ++ [(k, f d)]
  | some _ => aupdate m k f

/-- JS `fs.writeFileSync` at the directory level / `obj[k] = v` wholesale:
overwrite the entry for `k` if present, otherwise append it. -/
def putEntry {κ α : Type} [DecidableEq κ] (m : List (κ × α)) (k : κ) (v : α) : List (κ × α) :=
  match alookup m k with
  | none => m ++ [(k, v)]
  | some _ => aupdate m k (fun _ => v)

/-- The `reduce`/`for`-loop group-by pattern used throughout the reporters:
fold a list into a keyed container, where each item is folded into the entry
for its key (`upd`), entries being created from `d` on first sight. -/
def groupFold {κ α β : Type} [DecidableEq κ] (key : β → κ) (d : κ → α) (upd : α → β → α)
    (l : List β) : List (κ × α) :=
  l.foldl (fun acc item => upsert acc (key item) (d (key item)) (fun a => upd a item)) []

/-! ## Network monitor data model (`network-monitor/monitor.t.ts`) -/

/-- `FailureEntry`: what is recorded for each failed (status ≥ 400) response. -/
structure FailureEntry where
  testName : String
  responseCode : Nat
deriving DecidableEq, Repr

/-- `RequestStats`: per-URL counters plus the append-only failure list. -/
structure RequestStats where
  success : Nat
  fail : Nat
  failures : List FailureEntry
deriving DecidableEq, Repr

/-- `RequestMap = Map<string, RequestStats>`, embedded as an association list
in insertion order. -/
abbrev RequestMap := List (String × RequestStats)

/-- The all-zero `RequestStats` baseline object created on first sight of a URL. -/
def zeroStats : RequestStats := ⟨0, 0, []⟩

/-- Pointwise combination of two `RequestStats` (sum counters, concatenate
failures); the algebraic skeleton of the merge. -/
def addStats (s t : RequestStats) : RequestStats :=
  ⟨s.success + t.success, s.fail + t.fail, s.failures ++ t.failures⟩

/-- Stats stored for `url`, defaulting to the zero record when absent. -/
def statsOf (m : RequestMap) (url : String) : RequestStats :=
  (alookup m url).getD zeroStats

/-- One iteration of the inner loop of `mergeRequestMaps`
(`network-monitor/reporter.ts:98-112`): fold a single `[url, stats]` entry into
the accumulated merged map.  A missing URL is inserted as a copy; an existing
one has its counters summed and its failure list extended. -/
def mergeEntry (merged : RequestMap) (kv : String × RequestStats) : RequestMap :=
  match alookup merged kv.1 with
  | none =>
      merged ++ [(kv.1, ⟨kv.2.success, kv.2.fail, kv.2.failures⟩)]
  | some _ =>
      aupdate merged kv.1 (fun ex =>
        ⟨ex.success + kv.2.success, ex.fail + kv.2.fail, ex.failures ++ kv.2.failures⟩)

/-- `mergeRequestMaps(maps)` (`network-monitor/reporter.ts:94-118`): fold every
entry of every worker map, in order, into one merged map. -/
def mergeRequestMaps (maps : List RequestMap) : RequestMap :=
  maps.foldl (fun merged m => m.foldl mergeEntry merged) []

/-- Per-URL contribution of a raw entry list: the combination, in order, of the
stats of every entry whose key is `url` (`zeroStats` when there is none). -/
def contrib : List (String × RequestStats) → String → RequestStats
  | [], _ => zeroStats
  | (k, v) :: rest, url => if k = url then addStats v (contrib rest url) else contrib rest url

/-- The `page.on('response')` handler body of `monitorTraffic`
(`network-monitor/generator.ts:451-482`, the network monitor module): ensure a
baseline entry for `url` exists, then bump `fail` and append a `FailureEntry`
when `responseCode ≥ 400`, else bump `success`.  (The source's second
`if (!stats)` re-initialisation branch is unreachable and has no effect.) -/
def recordResponse (m : RequestMap) (url : String) (responseCode : Nat) (testName : String) :
    RequestMap :=
  upsert m url zeroStats (fun stats =>
    if 400 ≤ responseCode then
      ⟨stats.success, stats.fail + 1, stats.failures ++ [⟨testName, responseCode⟩]⟩
    else
      ⟨stats.success + 1, stats.fail, stats.failures⟩)

/-! ## Network report generation (`network-monitor/generator.ts`) -/

/-- URLs with at least one recorded failure, in report order
(`generator.ts:134-136`). -/
def failedUrls (report : RequestMap) : List String :=
  (report.filter (fun kv => 0 < kv.2.fail)).map Prod.fst

/-- The JS counter bump `obj[k] = (obj[k] ?? 0) + 1` on a plain object. -/
def bumpCount (counts : List (String × Nat)) (k : String) : List (String × Nat) :=
  upsert counts k 0 (fun n => n + 1)

/-- The pivot loop of `buildFailuresPivot` (`generator.ts:140-148`): for every
entry of the report and every recorded failure, `pivot[testName][url]++`
(creating `pivot[testName]` as an empty object on first sight). -/
def buildPivot (report : RequestMap) : List (String × List (String × Nat)) :=
  report.foldl
    (fun pivot kv =>
      kv.2.failures.foldl (fun pv f => upsert pv f.testName [] (fun counts => bumpCount counts kv.1)) pivot)
    []

/-- The failure-by-test section of the network report, with the HTML wrapper
abstracted to its structure: either the literal no-failures placeholder
paragraph, or a table with one column header per failing URL and one row per
test name carrying that test's per-URL failure counts (`counts[u] || 0`). -/
inductive PivotSection where
  | placeholder (text : String)
  | table (headers : List String) (rows : List (String × List Nat))
deriving DecidableEq, Repr

/-- `buildFailuresPivot(report)` (`generator.ts:130-170`): emit the literal
placeholder when no URL has a failure, otherwise the test-name × failing-URL
pivot table. -/
def buildFailuresPivot (report : RequestMap) : PivotSection :=
  let fus := failedUrls report
  if fus = [] then .placeholder "<p>No failures recorded.</p>"
  else
    .table fus
      ((buildPivot report).map (fun tkv => (tkv.1, fus.map (fun u => (alookup tkv.2 u).getD 0))))

/-! ## Network aggregation step (`network-monitor/reporter.ts:123-158`)

The report output directory is embedded as an association list from file name
to parsed file content (the network directory holds only network JSON files).
Reading-then-deleting every worker file and finally writing the merged file is
embedded as one pure function on that directory state. -/

/-- JS `String.prototype.startsWith`, embedded at the character level. -/
def strStartsWith (s p : String) : Bool := p.data.isPrefixOf s.data

/-- JS `String.prototype.endsWith`, embedded at the character level. -/
def strEndsWith (s p : String) : Bool := p.data.isSuffixOf s.data

/-- The worker-file filter of `aggregateAllTraffic` (`reporter.ts:128-130`). -/
def isWorkerNetworkFile (f : String) : Bool :=
  strStartsWith f "worker-" && strEndsWith f ".json"

/-- `TRAFFIC_CONFIG.JSON_OUTPUT_NAME` (`reporters.config.ts:34`). -/
def networkMergedName : String := "network-traffic-merged.json"

/-- `aggregateAllTraffic` (`network-monitor/reporter.ts:123-158`): snapshot the
worker files, parse and delete each, merge the maps, and write the merged file
(note: there is no early return when the worker-file list is empty — the merged
file is written unconditionally). -/
def aggregateAllTraffic (dir : List (String × RequestMap)) : List (String × RequestMap) :=
  let files := dir.filter (fun kv => isWorkerNetworkFile kv.1)
  let remaining := dir.filter (fun kv => !(isWorkerNetworkFile kv.1))
  putEntry remaining networkMergedName (mergeRequestMaps (files.map Prod.snd))

/-! ## Heatmap data model (`heatmap/heatmap.t.ts`, `utils/screenshot.ts`) -/

/-- `BoundingBox` as returned by `Locator.boundingBox()`. -/
structure BoundingBox where
  x : ℚ
  y : ℚ
  width : ℚ
  height : ℚ
deriving DecidableEq, Repr

/-- `InteractionLog`: one entry per successfully logged interaction.
`InteractionType` is embedded as a plain string. -/
structure InteractionLog where
  type : String
  pageObjectName : String
  timestamp : ℚ
  boundingBox : BoundingBox
deriving DecidableEq, Repr

/-- The `{x, y}` screenshot origin stored by the screenshot tracker. -/
structure OriginBox where
  x : ℚ
  y : ℚ
deriving DecidableEq, Repr

/-- `ScreenshotTracker` record (`utils/screenshot.ts:6-12`): the screenshot
path and the origin used to re-project interaction coordinates. -/
structure ScreenshotTracker where
  screenshotPath : String
  boundingBox : OriginBox
deriving DecidableEq, Repr

/-- `takeHeatmapScreenshot` (`utils/screenshot.ts:24-44`) restricted to its
effect on the per-worker tracker map: insert a record for `pageObjectName`
only when none exists yet; an existing record is never overwritten.  The
captured record (`shot`) — screenshot path plus element origin, `{0,0}` for
full pages — is a parameter standing for the capture performed inside the
guarded block. -/
def takeHeatmapScreenshot (tracker : List (String × ScreenshotTracker)) (pageObjectName : String)
    (shot : ScreenshotTracker) : List (String × ScreenshotTracker) :=
  if (alookup tracker pageObjectName).isSome then tracker
  else tracker ++ [(pageObjectName, shot)]

/-- `logInteraction` (`heatmap/interactionLogger.ts:23-38`): skip when the
locator had no bounding box, otherwise append one `InteractionLog` entry. -/
def logInteraction (logs : List InteractionLog) (boundingBox : Option BoundingBox)
    (type : String) (pageObjectName : String) (timestamp : ℚ) : List InteractionLog :=
  match boundingBox with
  | none => logs
  | some box => logs ++ [⟨type, pageObjectName, timestamp, box⟩]

/-- The per-worker mutable heatmap telemetry: the screenshot tracker map and
the interaction log list. -/
structure HeatmapState where
  tracker : List (String × ScreenshotTracker)
  logs : List InteractionLog
deriving DecidableEq, Repr

/-- The `@Interaction` wrapper body (`decorators/interaction.ts:27-64`): with
the pre-action bounding box already captured, (1) take the screenshot if the
report is on and none is tracked for this object, (2) run the underlying
action, (3) on success only — and only with the report on — log the
interaction.  The action's outcome is a parameter (`Except`), the captured
record and timestamp are environment parameters, and errors are propagated
unchanged while the state mutations that already happened persist. -/
def interactionWrapper {E A : Type} (runHeatmapReport : Bool) (type pageObjectName : String)
    (boundingBox : Option BoundingBox) (shot : ScreenshotTracker) (timestamp : ℚ)
    (action : Except E A) (st : HeatmapState) : Except E A × HeatmapState :=
  let tracker1 :=
    if runHeatmapReport && (alookup st.tracker pageObjectName).isNone then
      takeHeatmapScreenshot st.tracker pageObjectName shot
    else st.tracker
  match action with
  | .error e => (.error e, ⟨tracker1, st.logs⟩)
  | .ok a =>
      (.ok a,
       ⟨tracker1,
        if runHeatmapReport then logInteraction st.logs boundingBox type pageObjectName timestamp
        else st.logs⟩)

/-! ## Heatmap report generation (`heatmap/reporter.ts`) -/

/-- A per-bounding-box interaction summary (`reporter.ts:252-256`): per-type
counts and the total event count (`value`, the heatmap weight). -/
structure BoxSummary where
  boundingBox : BoundingBox
  counts : List (String × Nat)
  value : Nat
deriving DecidableEq, Repr

/-- The fresh `{boundingBox, counts: {}, value: 0}` entry created by
`summarizeEvents` on first sight of a bounding box (`reporter.ts:265-272`). -/
def summarizeInit (b : BoundingBox) : BoxSummary := ⟨b, [], 0⟩

/-- The per-event mutation of `summarizeEvents` (`reporter.ts:274-275`):
`entry.counts[evt.type] = (entry.counts[evt.type] ?? 0) + 1; entry.value++`. -/
def summarizeStep (s : BoxSummary) (e : InteractionLog) : BoxSummary :=
  ⟨s.boundingBox, bumpCount s.counts e.type, s.value + 1⟩

/-- `summarizeEvents(events)` (`heatmap/reporter.ts:249-280`): group the events
of one page object by bounding box (the source keys its `Map` by
`JSON.stringify(boundingBox)`, which identifies boxes exactly when they are
componentwise equal), create a `summarizeInit` entry on first sight, apply
`summarizeStep` per event, and finally return the values of the map in
insertion order. -/
def summarizeEvents (events : List InteractionLog) : List BoxSummary :=
  (groupFold (fun e => e.boundingBox) summarizeInit summarizeStep events).map Prod.snd

/-- `groupLogsBy(arr, 'pageObjectName')` (`heatmap/reporter.ts:283-292`): the
`reduce`-based pivot of the aggregated log into `Object.entries` of
object-name groups, each group in encounter order. -/
def groupLogsBy (arr : List InteractionLog) : List (String × List InteractionLog) :=
  groupFold (fun e => e.pageObjectName) (fun _ => []) (fun l e => l ++ [e]) arr

/-- One weighted heatmap point (`heatmap.t.ts` `HeatmapPoints` plus the
`counts` carried by the summary mode of `reporter.ts:114-119`). -/
structure HeatmapPoint where
  x : ℤ
  y : ℤ
  counts : List (String × Nat)
  value : Nat
deriving DecidableEq, Repr

/-- The point projection of `generateHeatmaps` (`reporter.ts:114-119`):
`Math.round(box.x - offsets.x + box.width / 2)` and likewise for `y`. -/
def heatPoint (off : OriginBox) (s : BoxSummary) : HeatmapPoint :=
  { x := round (s.boundingBox.x - off.x + s.boundingBox.width / 2)
    y := round (s.boundingBox.y - off.y + s.boundingBox.height / 2)
    counts := s.counts
    value := s.value }

/-- The per-group loop of `generateHeatmaps` (`heatmap/reporter.ts:90-138`),
with HTML rendering and file writes abstracted to the produced point lists.
For each group, the screenshot record is looked up (`aggScreenshots[name]`);
when it is missing, `offsets` is `undefined` and the non-null assertion
`offsets!.x` makes the first projected point throw a `TypeError`, which the
surrounding `try`/`catch` rethrows — aborting the whole report (`Except.error`).
Otherwise the group's summarized points are emitted and the loop continues. -/
def generateHeatmapsAux :
    List (String × List InteractionLog) → List (String × ScreenshotTracker) →
      Except String (List (String × List HeatmapPoint))
  | [], _ => .ok []
  | (name, logs) :: rest, screenshots =>
    match alookup screenshots name with
    | none => .error "Heatmap report generation failed: Cannot read properties of undefined"
    | some sr =>
      match generateHeatmapsAux rest screenshots with
      | .error e => .error e
      | .ok out => .ok ((name, (summarizeEvents logs).map (heatPoint sr.boundingBox)) :: out)

/-- `generateHeatmaps` (`heatmap/reporter.ts:60-154`) on the parsed merged
inputs: group the aggregated interactions by page object name and run the
per-group projection loop. -/
def generateHeatmaps (interactions : List InteractionLog)
    (screenshots : List (String × ScreenshotTracker)) :
    Except String (List (String × List HeatmapPoint)) :=
  generateHeatmapsAux (groupLogsBy interactions) screenshots

/-! ## Heatmap aggregation step (`heatmap/reporter.ts:161-241`) -/

/-- The worker-file filter of `aggregateInteractions` (`reporter.ts:166-168`). -/
def isWorkerInteractionsFile (f : String) : Bool :=
  strStartsWith f "worker-" && strEndsWith f "-interactions.json"

/-- The worker-file filter of `aggregateScreenshots` (`reporter.ts:209-211`). -/
def isWorkerScreenshotsFile (f : String) : Bool :=
  strStartsWith f "worker-" && strEndsWith f "-screenshots.json"

/-- `HEATMAP_CONFIG.INTERACTIONS_FILENAME` (`reporters.config.ts:20`). -/
def interactionsMergedName : String := "interactions-merged.json"

/-- `HEATMAP_CONFIG.SCREENSHOTS_FILENAME` (`reporters.config.ts:21`). -/
def screenshotsMergedName : String := "screenshots-merged.json"

/-- `aggregateInteractions` (`heatmap/reporter.ts:161-195`) on the interaction
files of the heatmap output directory: return unchanged when no worker file
matches, otherwise concatenate the files in listing order, delete each worker
file, and write the merged file. -/
def aggregateInteractions (dir : List (String × List InteractionLog)) :
    List (String × List InteractionLog) :=
  let files := dir.filter (fun kv => isWorkerInteractionsFile kv.1)
  if files = [] then dir
  else
    putEntry (dir.filter (fun kv => !(isWorkerInteractionsFile kv.1))) interactionsMergedName
      ((files.map Prod.snd).flatten)

/-- The inner merge of `aggregateScreenshots` (`reporter.ts:223-227`): keys
already aggregated are skipped (`continue`), new keys are appended — first
seen wins.  (A stored record is a non-null object, so the source's falsy check
`if (aggregatedScreenshots[k])` is key presence.) -/
def mergeScreenshotEntries (agg : List (String × ScreenshotTracker))
    (entries : List (String × ScreenshotTracker)) : List (String × ScreenshotTracker) :=
  entries.foldl (fun acc kv => if (alookup acc kv.1).isSome then acc else acc ++ [kv]) agg

/-- The content-level merge performed by `aggregateScreenshots` across the
parsed worker files, in listing order. -/
def aggregateScreenshotMaps (files : List (List (String × ScreenshotTracker))) :
    List (String × ScreenshotTracker) :=
  files.foldl mergeScreenshotEntries []

/-- `aggregateScreenshots` (`heatmap/reporter.ts:203-241`) on the screenshot
files of the heatmap output directory: return unchanged when no worker file
matches, otherwise merge first-seen-wins, delete each worker file, and write
the merged file. -/
def aggregateScreenshots (dir : List (String × List (String × ScreenshotTracker))) :
    List (String × List (String × ScreenshotTracker)) :=
  let files := dir.filter (fun kv => isWorkerScreenshotsFile kv.1)
  if files = [] then dir
  else
    putEntry (dir.filter (fun kv => !(isWorkerScreenshotsFile kv.1))) screenshotsMergedName
      (aggregateScreenshotMaps (files.map Prod.snd))

/-! ## Sandboxed filesystem layer (`utils/fs/fsHelpers.ts`)

Absolute paths are embedded as lists of path segments from the filesystem
root; `path.resolve`'s lexical normalisation is `normSegs`.  The filesystem is
a finite map from (symlink-free) node paths to nodes; symlink targets are
absolute paths.  Symlink chains are kept one level deep (a target never passes
through another symlink), which is the setting all the claims quantify over,
and makes single-pass resolution exact. -/

/-- A filesystem node: directory, regular file, or symbolic link. -/
inductive FsNode where
  | dir
  | file
  | symlink (target : List String)
deriving DecidableEq, Repr

/-- A filesystem: finite map from absolute node path to node. -/
structure FS where
  nodes : List (List String × FsNode)
deriving DecidableEq, Repr

/-- Node stored at (symlink-free) path `p`. -/
def FS.find (fs : FS) (p : List String) : Option FsNode :=
  alookup fs.nodes p

/-- Create or overwrite the node at `p`. -/
def FS.insert (fs : FS) (p : List String) (n : FsNode) : FS :=
  ⟨putEntry fs.nodes p n⟩

/-- Remove the node at `p` (`fs.unlinkSync`). -/
def FS.erase (fs : FS) (p : List String) : FS :=
  ⟨fs.nodes.filter (fun kv => !(kv.1 = p : Bool))⟩

/-- `path.resolve`'s lexical normalisation: `.` segments vanish and `..` pops
the previous segment (staying at the root when there is none). -/
def normSegs (p : List String) : List String :=
  p.foldl (fun acc s =>
    if s = "." then acc else if s = ".." then acc.dropLast else acc ++ [s]) []

/-- Resolve one further segment against the filesystem, following a symlink
stored at the extended path. -/
def resolveStep (fs : FS) (cur : List String) (s : String) : List String :=
  match fs.find (cur ++ [s]) with
  | some (.symlink t) => t
  | _ => cur ++ [s]

/-- `fs.realpathSync`-style full resolution of a normalised absolute path:
resolve every component, following symlinks, starting from the root. -/
def resolveFull (fs : FS) (p : List String) : List String :=
  p.foldl (resolveStep fs) []

/-- `fs.existsSync`: the path, with all symlinks followed, names a node. -/
def existsS (fs : FS) (p : List String) : Bool :=
  (fs.find (resolveFull fs p)).isSome

/-- The nearest-existing-ancestor search shared by `canonicalizeTarget`
(`fsHelpers.ts:32-43`) and `hasSymlinkInExistingPath` (`fsHelpers.ts:107-113`):
pop trailing segments while the path does not exist.  Takes the reversed
segment list; returns the existing ancestor and the popped suffix in order. -/
def splitAncestorRev (fs : FS) : List String → List String × List String
  | [] => ([], [])
  | s :: restRev =>
      if existsS fs ((s :: restRev).reverse) then ((s :: restRev).reverse, [])
      else
        let pr := splitAncestorRev fs restRev
        (pr.1, pr.2 ++ [s])

/-- `canonicalizeTarget` (`fsHelpers.ts:24-50`): `realpathSync` when the path
exists; otherwise `realpathSync` of the nearest existing ancestor with the
non-existing (already normalised) suffix re-appended. -/
def canonicalizeTarget (fs : FS) (p : List String) : List String :=
  let abs := normSegs p
  if existsS fs abs then resolveFull fs abs
  else
    let pr := splitAncestorRev fs abs.reverse
    resolveFull fs pr.1 ++ pr.2

/-- `isInsideWorkspace` (`fsHelpers.ts:58-80`) with `ws` standing for the
canonical `WORKSPACE_REAL`: the canonicalised target equals the workspace or
lies strictly below it. -/
def isInsideWorkspace (fs : FS) (ws : List String) (p : List String) : Bool :=
  let canonical := canonicalizeTarget fs p
  canonical = ws || ws.isPrefixOf canonical

/-- `fs.lstatSync(p).isSymbolicLink()`: intermediate symlinks are followed but
the final component is not. -/
def lresolveAux (fs : FS) (cur : List String) : List String → List String
  | [] => cur
  | [s] => cur ++ [s]
  | s :: s' :: rest => lresolveAux fs (resolveStep fs cur s) (s' :: rest)

/-- Whether `lstat` reports a symbolic link at `p`. -/
def lstatIsSymlink (fs : FS) (p : List String) : Bool :=
  match fs.find (lresolveAux fs [] p) with
  | some (.symlink _) => true
  | _ => false

/-- The downward walk of `hasSymlinkInExistingPath` (`fsHelpers.ts:134-144`):
extend the checked path segment by segment, stopping at the first non-existing
component, reporting any symlink met. -/
def walkCheck (fs : FS) (check : List String) : List String → Bool
  | [] => false
  | s :: rest =>
      if !existsS fs (check ++ [s]) then false
      else if lstatIsSymlink fs (check ++ [s]) then true
      else walkCheck fs (check ++ [s]) rest

/-- `hasSymlinkInExistingPath` (`fsHelpers.ts:103-151`): find the nearest
existing ancestor, `lstat`-check it, then walk back down through the (by
construction non-existing) popped components. -/
def hasSymlinkInExistingPath (fs : FS) (p : List String) : Bool :=
  let abs := normSegs p
  let pr := splitAncestorRev fs abs.reverse
  if lstatIsSymlink fs pr.1 then true
  else walkCheck fs pr.1 pr.2

/-- `assertSafePath` (`fsHelpers.ts:160-175`): reject a target whose canonical
path leaves the workspace, then reject any symlink among the existing
components of the original path.  Errors model the thrown `[SECURITY]`
exceptions. -/
def assertSafePath (fs : FS) (ws : List String) (p : List String) : Except String Unit :=
  if !(isInsideWorkspace fs ws (canonicalizeTarget fs p)) then
    .error "[SECURITY] Refusing operation: path is outside workspace"
  else if hasSymlinkInExistingPath fs p then
    .error "[SECURITY] Refusing operation: path contains a symlink (possible escape)"
  else .ok ()

/-- `fs.mkdirSync(p, {recursive: true})`: walk the segments from the root,
following existing entries (and symlinked directories) and creating directory
nodes for missing components. -/
def mkdirp : FS → List String → List String → FS
  | fs, _, [] => fs
  | fs, cur, s :: rest =>
      match fs.find (cur ++ [s]) with
      | some (.symlink t) => mkdirp fs t rest
      | some _ => mkdirp fs (cur ++ [s]) rest
      | none => mkdirp (FS.insert fs (cur ++ [s]) .dir) (cur ++ [s]) rest

/-- `createPathSafe` (`fsHelpers.ts:183-197`): assert the path safe, then
create it (recursively) when it does not exist. -/
def createPathSafe (fs : FS) (ws : List String) (p : List String) : Except String FS :=
  let abs := normSegs p
  match assertSafePath fs ws abs with
  | .error e => .error e
  | .ok _ => .ok (if existsS fs abs then fs else mkdirp fs [] abs)

/-- `fs.writeFileSync`: the write lands at the fully resolved path — symlinks,
including one at the final component, are followed.  Returns the new
filesystem and the canonical path that was physically touched. -/
def writeFileSyncTouched (fs : FS) (p : List String) : FS × List String :=
  let touched := resolveFull fs p
  (FS.insert fs touched .file, touched)

/-- `writeTextFileSafe` (`fsHelpers.ts:301-317`): ensure the PARENT directory
is safe and exists (`createPathSafe(path.dirname(absPath))` — note that the
safety assertion is applied to the parent only, never to the file path
itself), then `fs.writeFileSync(absPath, ...)`. -/
def writeTextFileSafe (fs : FS) (ws : List String) (p : List String) :
    Except String (FS × List String) :=
  let abs := normSegs p
  match createPathSafe fs ws abs.dropLast with
  | .error e => .error e
  | .ok fs1 => .ok (writeFileSyncTouched fs1 abs)

/-- `readFileSafe` (`fsHelpers.ts:262-274`): assert the full path safe, then
read; returns the canonical path that would be physically read. -/
def readFileSafe (fs : FS) (ws : List String) (p : List String) :
    Except String (List String) :=
  let abs := normSegs p
  match assertSafePath fs ws abs with
  | .error e => .error e
  | .ok _ => .ok (resolveFull fs abs)

/-- `deleteFileSafe` (`fsHelpers.ts:280-293`): assert the full path safe, then
unlink when `existsSync` holds (the link itself is removed, not its target). -/
def deleteFileSafe (fs : FS) (ws : List String) (p : List String) : Except String FS :=
  let abs := normSegs p
  match assertSafePath fs ws abs with
  | .error e => .error e
  | .ok _ => .ok (if existsS fs abs then FS.erase fs (lresolveAux fs [] abs) else fs)

/-! ## Association-list lemmas -/

theorem alookup_append {κ α : Type} [DecidableEq κ] (l1 l2 : List (κ × α)) (k : κ) :
    alookup (l1 ++ l2) k = (alookup l1 k).or (alookup l2 k) := by
  induction l1 with
  | nil => simp [alookup]
  | cons hd tl ih =>
    obtain ⟨k', v⟩ := hd
    by_cases h : k' = k <;> simp [alookup, h, ih]

theorem alookup_eq_none_iff {κ α : Type} [DecidableEq κ] (m : List (κ × α)) (k : κ) :
    alookup m k = none ↔ k ∉ m.map Prod.fst := by
  induction m with
  | nil => simp [alookup]
  | cons hd tl ih =>
    obtain ⟨k', v⟩ := hd
    by_cases h : k' = k
    · subst h
      simp [alookup]
    · have h2 : k ≠ k' := Ne.symm h
      simp [alookup, h, h2, ih]

theorem mem_of_alookup_eq_some {κ α : Type} [DecidableEq κ] {m : List (κ × α)} {k : κ} {v : α}
    (h : alookup m k = some v) : (k, v) ∈ m := by
  induction m with
  | nil => simp [alookup] at h
  | cons hd tl ih =>
    obtain ⟨k', w⟩ := hd
    by_cases hk : k' = k
    · subst hk
      simp [alookup] at h
      simp [h]
    · simp [alookup, hk] at h
      exact List.mem_cons_of_mem _ (ih h)

theorem alookup_of_mem_of_nodup {κ α : Type} [DecidableEq κ] {m : List (κ × α)} {k : κ} {v : α}
    (hnd : (m.map Prod.fst).Nodup) (h : (k, v) ∈ m) : alookup m k = some v := by
  induction m with
  | nil => simp at h
  | cons hd tl ih =>
    obtain ⟨k', w⟩ := hd
    simp only [List.map_cons, List.nodup_cons] at hnd
    rcases List.mem_cons.mp h with heq | hmem
    · cases heq
      simp [alookup]
    · have hk : k' ≠ k := by
        intro hkk
        exact hnd.1 (List.mem_map.mpr ⟨(k, v), hmem, hkk.symm⟩)
      simp [alookup, hk, ih hnd.2 hmem]

theorem alookup_isSome_iff {κ α : Type} [DecidableEq κ] (m : List (κ × α)) (k : κ) :
    (alookup m k).isSome ↔ k ∈ m.map Prod.fst := by
  cases hl : alookup m k with
  | none => simp [(alookup_eq_none_iff m k).mp hl]
  | some v =>
    simp only [Option.isSome_some, true_iff]
    exact List.mem_map.mpr ⟨(k, v), mem_of_alookup_eq_some hl, rfl⟩

theorem alookup_aupdate_self {κ α : Type} [DecidableEq κ] {m : List (κ × α)} {k : κ} {v : α}
    (f : α → α) (h : alookup m k = some v) : alookup (aupdate m k f) k = some (f v) := by
  induction m with
  | nil => simp [alookup] at h
  | cons hd tl ih =>
    obtain ⟨k', w⟩ := hd
    by_cases hk : k' = k
    · subst hk
      simp [alookup] at h
      simp [aupdate, alookup, h]
    · simp [alookup, hk] at h
      simp [aupdate, alookup, hk, ih h]

theorem alookup_aupdate_ne {κ α : Type} [DecidableEq κ] (m : List (κ × α)) (k k' : κ)
    (f : α → α) (h : k' ≠ k) : alookup (aupdate m k f) k' = alookup m k' := by
  induction m with
  | nil => simp [aupdate]
  | cons hd tl ih =>
    obtain ⟨k'', w⟩ := hd
    by_cases hk : k'' = k
    · subst hk
      simp [aupdate, alookup, Ne.symm h]
    · by_cases hk' : k'' = k'
      · subst hk'
        simp [aupdate, alookup, hk]
      · simp [aupdate, alookup, hk, hk', ih]

theorem aupdate_map_fst {κ α : Type} [DecidableEq κ] (m : List (κ × α)) (k : κ) (f : α → α) :
    (aupdate m k f).map Prod.fst = m.map Prod.fst := by
  induction m with
  | nil => simp [aupdate]
  | cons hd tl ih =>
    obtain ⟨k', w⟩ := hd
    by_cases hk : k' = k <;> simp [aupdate, hk, ih]

theorem aupdate_of_alookup_eq_none {κ α : Type} [DecidableEq κ] {m : List (κ × α)} {k : κ}
    (f : α → α) (h : alookup m k = none) : aupdate m k f = m := by
  induction m with
  | nil => simp [aupdate]
  | cons hd tl ih =>
    obtain ⟨k', w⟩ := hd
    by_cases hk : k' = k
    · subst hk
      simp [alookup] at h
    · simp [alookup, hk] at h
      simp [aupdate, hk, ih h]

theorem mem_aupdate {κ α : Type} [DecidableEq κ] {m : List (κ × α)} {k : κ} {f : α → α}
    {kv : κ × α} (hnd : (m.map Prod.fst).Nodup) (h : kv ∈ aupdate m k f) :
    (kv ∈ m ∧ kv.1 ≠ k) ∨ ∃ v, alookup m k = some v ∧ kv = (k, f v) := by
  induction m with
  | nil => simp [aupdate] at h
  | cons hd tl ih =>
    obtain ⟨k', w⟩ := hd
    simp only [List.map_cons, List.nodup_cons] at hnd
    by_cases hk : k' = k
    · subst hk
      simp only [aupdate, if_pos rfl] at h
      rcases List.mem_cons.mp h with heq | hmem
      · exact Or.inr ⟨w, by simp [alookup], heq⟩
      · left
        refine ⟨List.mem_cons_of_mem _ hmem, ?_⟩
        intro hkv
        exact hnd.1 (List.mem_map.mpr ⟨kv, hmem, hkv⟩)
    · simp only [aupdate, if_neg hk] at h
      rcases List.mem_cons.mp h with heq | hmem
      · subst heq
        exact Or.inl ⟨List.mem_cons_self _ _, hk⟩
      · rcases ih hnd.2 hmem with ⟨hm, hne⟩ | ⟨v, hv, hkv⟩
        · exact Or.inl ⟨List.mem_cons_of_mem _ hm, hne⟩
        · exact Or.inr ⟨v, by simp [alookup, hk, hv], hkv⟩

theorem alookup_upsert_self {κ α : Type} [DecidableEq κ] (m : List (κ × α)) (k : κ) (d : α)
    (f : α → α) : alookup (upsert m k d f) k = some (f ((alookup m k).getD d)) := by
  cases hl : alookup m k with
  | none =>
    simp [upsert, hl, alookup_append, (alookup_eq_none_iff m k).mp hl, alookup]
  | some v =>
    simp [upsert, hl, alookup_aupdate_self f hl]

theorem alookup_upsert_ne {κ α : Type} [DecidableEq κ] (m : List (κ × α)) (k k' : κ) (d : α)
    (f : α → α) (h : k' ≠ k) : alookup (upsert m k d f) k' = alookup m k' := by
  cases hl : alookup m k with
  | none =>
    simp [upsert, hl, alookup_append, alookup, Ne.symm h]
  | some v =>
    simp [upsert, hl, alookup_aupdate_ne m k k' f h]

theorem upsert_map_fst {κ α : Type} [DecidableEq κ] (m : List (κ × α)) (k : κ) (d : α)
    (f : α → α) :
    (upsert m k d f).map Prod.fst =
      if (alookup m k).isSome then m.map Prod.fst else m.map Prod.fst ++ [k] := by
  cases hl : alookup m k with
  | none => simp [upsert, hl]
  | some v => simp [upsert, hl, aupdate_map_fst]

theorem upsert_keys_nodup {κ α : Type} [DecidableEq κ] {m : List (κ × α)} (k : κ) (d : α)
    (f : α → α) (hnd : (m.map Prod.fst).Nodup) : ((upsert m k d f).map Prod.fst).Nodup := by
  rw [upsert_map_fst]
  cases hl : alookup m k with
  | none =>
    have := (alookup_eq_none_iff m k).mp hl
    simp [List.nodup_append, hnd, this]
  | some v => simp [hnd]

theorem sum_map_aupdate {κ α : Type} [DecidableEq κ] {m : List (κ × α)} {k : κ} {v : α}
    (f : α → α) (g : α → Nat) (h : alookup m k = some v) :
    ((aupdate m k f).map (fun kv => g kv.2)).sum + g v =
      (m.map (fun kv => g kv.2)).sum + g (f v) := by
  induction m with
  | nil => simp [alookup] at h
  | cons hd tl ih =>
    obtain ⟨k', w⟩ := hd
    by_cases hk : k' = k
    · subst hk
      simp [alookup] at h
      subst h
      simp [aupdate]
      omega
    · simp [alookup, hk] at h
      simp only [aupdate, if_neg hk, List.map_cons, List.sum_cons]
      have := ih h
      omega

theorem mem_upsert {κ α : Type} [DecidableEq κ] {m : List (κ × α)} {k : κ} {d : α} {f : α → α}
    {kv : κ × α} (hnd : (m.map Prod.fst).Nodup) (h : kv ∈ upsert m k d f) :
    (kv ∈ m ∧ kv.1 ≠ k) ∨ kv = (k, f ((alookup m k).getD d)) := by
  cases hl : alookup m k with
  | none =>
    rw [upsert, hl] at h
    rcases List.mem_append.mp h with hm | hnew
    · left
      refine ⟨hm, ?_⟩
      intro hkv
      have : k ∈ m.map Prod.fst := List.mem_map.mpr ⟨kv, hm, hkv⟩
      exact (alookup_eq_none_iff m k).mp hl this
    · right
      simpa [hl] using List.mem_singleton.mp hnew
  | some v =>
    rw [upsert, hl] at h
    rcases mem_aupdate hnd h with hm | ⟨w, hw, hkv⟩
    · exact Or.inl hm
    · right
      rw [hw] at hl
      cases hl
      simpa [hw] using hkv

theorem groupFold_append_singleton {κ α β : Type} [DecidableEq κ] (key : β → κ) (d : κ → α)
    (upd : α → β → α) (l : List β) (b : β) :
    groupFold key d upd (l ++ [b]) =
      upsert (groupFold key d upd l) (key b) (d (key b)) (fun a => upd a b) := by
  simp [groupFold, List.foldl_append]

theorem alookup_groupFold {κ α β : Type} [DecidableEq κ] (key : β → κ) (d : κ → α)
    (upd : α → β → α) (l : List β) (k : κ) :
    alookup (groupFold key d upd l) k =
      if (l.filter (fun b => decide (key b = k))).isEmpty then none
      else some ((l.filter (fun b => decide (key b = k))).foldl upd (d k)) := by
  induction l using List.reverseRecOn with
  | nil => simp [groupFold, alookup]
  | append_singleton l b ih =>
    rw [groupFold_append_singleton]
    by_cases hb : key b = k
    · rw [hb, alookup_upsert_self, ih]
      rw [List.filter_append]
      simp only [List.filter_cons, List.filter_nil, decide_eq_true_eq, if_pos trivial]
      by_cases hfl : (l.filter (fun b => decide (key b = k))).isEmpty
      · rw [List.isEmpty_iff] at hfl
        simp [hfl, hb]
      · rw [List.isEmpty_iff] at hfl
        simp [hfl, hb, List.foldl_append]
    · rw [alookup_upsert_ne _ _ _ _ _ (Ne.symm hb), ih]
      rw [List.filter_append]
      simp [List.filter_cons, hb]

theorem groupFold_keys_nodup {κ α β : Type} [DecidableEq κ] (key : β → κ) (d : κ → α)
    (upd : α → β → α) (l : List β) : ((groupFold key d upd l).map Prod.fst).Nodup := by
  induction l using List.reverseRecOn with
  | nil => simp [groupFold]
  | append_singleton l b ih =>
    rw [groupFold_append_singleton]
    exact upsert_keys_nodup _ _ _ ih

theorem mem_keys_groupFold {κ α β : Type} [DecidableEq κ] (key : β → κ) (d : κ → α)
    (upd : α → β → α) (l : List β) (k : κ) :
    k ∈ (groupFold key d upd l).map Prod.fst ↔ ∃ b ∈ l, key b = k := by
  rw [← alookup_isSome_iff, alookup_groupFold]
  by_cases hfl : (l.filter (fun b => decide (key b = k))).isEmpty
  · simp only [hfl, if_pos trivial, Option.isSome_none, Bool.false_eq_true, false_iff]
    rw [List.isEmpty_iff, List.filter_eq_nil_iff] at hfl
    push_neg
    intro b hb
    have := hfl b hb
    simpa using this
  · simp only [hfl, if_neg, Bool.false_eq_true, not_false_eq_true, Option.isSome_some, true_iff]
    rw [List.isEmpty_iff] at hfl
    obtain ⟨b, hb⟩ := List.exists_mem_of_ne_nil _ hfl
    have hmem := List.mem_of_mem_filter hb
    have hkey := List.of_mem_filter hb
    exact ⟨b, hmem, by simpa using hkey⟩

theorem foldl_foldl_eq_foldl_flatten {α β : Type} (f : α → β → α) (ls : List (List β)) (a : α) :
    ls.foldl (fun acc l => l.foldl f acc) a = ls.flatten.foldl f a := by
  induction ls generalizing a with
  | nil => rfl
  | cons hd tl ih => simp [List.foldl_append, ih]

/-! ## Network merge lemmas -/

theorem addStats_zero (s : RequestStats) : addStats s zeroStats = s := by
  simp [addStats, zeroStats]

theorem zero_addStats (s : RequestStats) : addStats zeroStats s = s := by
  simp [addStats, zeroStats]

theorem addStats_assoc (s t u : RequestStats) :
    addStats (addStats s t) u = addStats s (addStats t u) := by
  simp [addStats, Nat.add_assoc]

theorem statsOf_mergeEntry (acc : RequestMap) (kv : String × RequestStats) (url : String) :
    statsOf (mergeEntry acc kv) url =
      if kv.1 = url then addStats (statsOf acc url) kv.2 else statsOf acc url := by
  by_cases hk : kv.1 = url
  · subst hk
    cases hl : alookup acc kv.1 with
    | none =>
      simp [mergeEntry, hl, statsOf, alookup_append, alookup, zeroStats, addStats]
    | some v =>
      simp [mergeEntry, hl, statsOf, alookup_aupdate_self _ hl, addStats]
  · cases hl : alookup acc kv.1 with
    | none =>
      simp [mergeEntry, hl, statsOf, alookup_append, alookup, hk, Ne.symm hk]
    | some v =>
      simp [mergeEntry, hl, statsOf, alookup_aupdate_ne _ _ _ _ (Ne.symm hk), hk]

theorem statsOf_foldl_mergeEntry (es : List (String × RequestStats)) (acc : RequestMap)
    (url : String) :
    statsOf (es.foldl mergeEntry acc) url = addStats (statsOf acc url) (contrib es url) := by
  induction es generalizing acc with
  | nil => simp [contrib, addStats_zero]
  | cons kv rest ih =>
    obtain ⟨k, v⟩ := kv
    rw [List.foldl_cons, ih, statsOf_mergeEntry]
    by_cases hk : k = url
    · simp [contrib, hk, addStats_assoc]
    · simp [contrib, hk]

theorem contrib_append (as bs : List (String × RequestStats)) (url : String) :
    contrib (as ++ bs) url = addStats (contrib as url) (contrib bs url) := by
  induction as with
  | nil => simp [contrib, zero_addStats]
  | cons kv rest ih =>
    obtain ⟨k, v⟩ := kv
    by_cases hk : k = url <;> simp [contrib, hk, ih, addStats_assoc]

theorem contrib_eq_zero_of_not_mem {m : List (String × RequestStats)} {url : String}
    (h : url ∉ m.map Prod.fst) : contrib m url = zeroStats := by
  induction m with
  | nil => rfl
  | cons kv rest ih =>
    obtain ⟨k, v⟩ := kv
    simp only [List.map_cons, List.mem_cons, not_or] at h
    simp [contrib, Ne.symm h.1, ih h.2]

theorem contrib_eq_statsOf_of_nodup {m : RequestMap} (hnd : (m.map Prod.fst).Nodup)
    (url : String) : contrib m url = statsOf m url := by
  induction m with
  | nil => rfl
  | cons kv rest ih =>
    obtain ⟨k, v⟩ := kv
    simp only [List.map_cons, List.nodup_cons] at hnd
    by_cases hk : k = url
    · subst hk
      rw [contrib, if_pos rfl, contrib_eq_zero_of_not_mem hnd.1, addStats_zero]
      simp [statsOf, alookup]
    · rw [contrib, if_neg hk, ih hnd.2]
      simp [statsOf, alookup, hk]

theorem statsOf_mergeRequestMaps (maps : List RequestMap) (url : String) :
    statsOf (mergeRequestMaps maps) url = contrib maps.flatten url := by
  rw [mergeRequestMaps, foldl_foldl_eq_foldl_flatten, statsOf_foldl_mergeEntry]
  simp [statsOf, alookup, zero_addStats]

/-- C1: merging worker `RequestMap`s sums, per URL, the success and fail
counters across the input maps and concatenates the failure lists in input
order.  The per-map key-uniqueness hypothesis is JS `Map` semantics (the maps
come from parsed JSON objects). -/
theorem mergeRequestMaps_conservation (maps : List RequestMap) (url : String)
    (hnd : ∀ m ∈ maps, (m.map Prod.fst).Nodup) :
    (statsOf (mergeRequestMaps maps) url).success
        = (maps.map fun m => (statsOf m url).success).sum ∧
    (statsOf (mergeRequestMaps maps) url).fail
        = (maps.map fun m => (statsOf m url).fail).sum ∧
    (statsOf (mergeRequestMaps maps) url).failures
        = (maps.map fun m => (statsOf m url).failures).flatten := by
  rw [statsOf_mergeRequestMaps]
  induction maps with
  | nil => simp [contrib, zeroStats]
  | cons m rest ih =>
    have hm := hnd m (List.mem_cons_self m rest)
    have hrest := ih (fun m' hm' => hnd m' (List.mem_cons_of_mem m hm'))
    rw [List.flatten_cons, contrib_append, contrib_eq_statsOf_of_nodup hm]
    simp only [addStats, List.map_cons, List.sum_cons, List.flatten_cons]
    exact ⟨by rw [hrest.1], by rw [hrest.2.1], by rw [hrest.2.2]⟩

/-- C1 witness: the spec's network-merge scenario — worker A reports
`success=3, fail=1, failures=[{t1,404}]` and worker B reports
`success=2, fail=0` for the same URL; the merge yields
`success=5, fail=1, failures=[{t1,404}]`. -/
theorem mergeRequestMaps_conservation_witness :
    (∀ m ∈ ([[("https://x/y", ⟨3, 1, [⟨"t1", 404⟩]⟩)],
             [("https://x/y", ⟨2, 0, []⟩)]] : List RequestMap), (m.map Prod.fst).Nodup) ∧
    statsOf
        (mergeRequestMaps
          [[("https://x/y", ⟨3, 1, [⟨"t1", 404⟩]⟩)], [("https://x/y", ⟨2, 0, []⟩)]])
        "https://x/y"
      = ⟨5, 1, [⟨"t1", 404⟩]⟩ := by
  have h :=
    mergeRequestMaps_conservation
      [[("https://x/y", ⟨3, 1, [⟨"t1", 404⟩]⟩)], [("https://x/y", ⟨2, 0, []⟩)]]
      "https://x/y" (by decide)
  refine ⟨by decide, ?_⟩
  calc
    statsOf
        (mergeRequestMaps
          [[("https://x/y", ⟨3, 1, [⟨"t1", 404⟩]⟩)], [("https://x/y", ⟨2, 0, []⟩)]])
        "https://x/y"
      = ⟨(statsOf
            (mergeRequestMaps
              [[("https://x/y", ⟨3, 1, [⟨"t1", 404⟩]⟩)], [("https://x/y", ⟨2, 0, []⟩)]])
            "https://x/y").success,
         (statsOf
            (mergeRequestMaps
              [[("https://x/y", ⟨3, 1, [⟨"t1", 404⟩]⟩)], [("https://x/y", ⟨2, 0, []⟩)]])
            "https://x/y").fail,
         (statsOf
            (mergeRequestMaps
              [[("https://x/y", ⟨3, 1, [⟨"t1", 404⟩]⟩)], [("https://x/y", ⟨2, 0, []⟩)]])
            "https://x/y").failures⟩ := rfl
    _ = ⟨5, 1, [⟨"t1", 404⟩]⟩ := by
          rw [h.1, h.2.1, h.2.2]
          decide

/-- C4: recording a response looks up or creates the URL's entry; with status
`≥ 400` it bumps `fail` and appends `{testName, statusCode}` to `failures`,
otherwise it bumps `success`; every other URL's entry is untouched (the
operation is a total function on process-local state — it cannot fail). -/
theorem recordResponse_spec (m : RequestMap) (url : String) (responseCode : Nat)
    (testName : String) :
    (statsOf (recordResponse m url responseCode testName) url =
      if 400 ≤ responseCode then
        ⟨(statsOf m url).success, (statsOf m url).fail + 1,
         (statsOf m url).failures ++ [⟨testName, responseCode⟩]⟩
      else
        ⟨(statsOf m url).success + 1, (statsOf m url).fail, (statsOf m url).failures⟩) ∧
    (∀ u, u ≠ url →
      alookup (recordResponse m url responseCode testName) u = alookup m u) := by
  constructor
  · rw [recordResponse, statsOf, alookup_upsert_self]
    rfl
  · intro u hu
    rw [recordResponse, alookup_upsert_ne _ _ _ _ _ hu]

/-- C4 witness: a 404 on a fresh URL creates `{success: 0, fail: 1,
failures: [{t, 404}]}` and leaves an unrelated URL absent. -/
theorem recordResponse_spec_witness :
    statsOf (recordResponse [] "https://x/y" 404 "t") "https://x/y" = ⟨0, 1, [⟨"t", 404⟩]⟩ ∧
    ("https://other" ≠ "https://x/y" ∧
      alookup (recordResponse [] "https://x/y" 404 "t") "https://other" =
        alookup ([] : RequestMap) "https://other") := by
  have h := recordResponse_spec [] "https://x/y" 404 "t"
  refine ⟨?_, by decide, h.2 "https://other" (by decide)⟩
  rw [h.1]
  decide

/-- C8: with no failing URL in the merged map the failure-by-test section is
the literal no-failures placeholder; with at least one failing URL it is a
pivot table whose column headers are exactly the URLs with at least one
failure. -/
theorem buildFailuresPivot_spec (report : RequestMap) (hnd : (report.map Prod.fst).Nodup) :
    ((∀ kv ∈ report, kv.2.fail = 0) →
      buildFailuresPivot report = .placeholder "<p>No failures recorded.</p>") ∧
    ((∃ kv ∈ report, 0 < kv.2.fail) →
      ∃ rows, buildFailuresPivot report = .table (failedUrls report) rows ∧
        ∀ u, u ∈ failedUrls report ↔ ∃ s, alookup report u = some s ∧ 1 ≤ s.fail) := by
  constructor
  · intro hz
    have hfil : report.filter (fun kv => 0 < kv.2.fail) = [] := by
      rw [List.filter_eq_nil_iff]
      intro kv hkv
      simp [hz kv hkv]
    rw [buildFailuresPivot, failedUrls, hfil]
    simp
  · intro ⟨kv, hkv, hfail⟩
    have hmemf : kv ∈ report.filter (fun kv => 0 < kv.2.fail) :=
      List.mem_filter.mpr ⟨hkv, by simpa using hfail⟩
    have hne : failedUrls report ≠ [] := by
      rw [failedUrls]
      intro hc
      rw [List.map_eq_nil_iff] at hc
      rw [hc] at hmemf
      simp at hmemf
    refine ⟨_, by rw [buildFailuresPivot, if_neg hne], ?_⟩
    intro u
    constructor
    · intro hu
      obtain ⟨⟨k, s⟩, hks, hfst⟩ := List.mem_map.mp hu
      obtain ⟨hmem, hp⟩ := List.mem_filter.mp hks
      cases hfst
      exact ⟨s, alookup_of_mem_of_nodup hnd hmem, by simpa using hp⟩
    · intro ⟨s, hs, hfail1⟩
      have hmem := mem_of_alookup_eq_some hs
      exact List.mem_map.mpr ⟨(u, s), List.mem_filter.mpr ⟨hmem, by simpa using hfail1⟩, rfl⟩

/-- C8 witness: the spec's zero-failure scenario renders the placeholder, and
a map with one failing URL renders a table headed by exactly that URL. -/
theorem buildFailuresPivot_spec_witness :
    buildFailuresPivot [("https://a/ok", ⟨5, 0, []⟩)] =
        .placeholder "<p>No failures recorded.</p>" ∧
    buildFailuresPivot
        [("https://a/ok", ⟨5, 0, []⟩), ("https://b/bad", ⟨1, 2, [⟨"t", 500⟩, ⟨"t", 500⟩]⟩)] =
      .table ["https://b/bad"] [("t", [2])] := by
  have h0 := buildFailuresPivot_spec [("https://a/ok", ⟨5, 0, []⟩)] (by decide)
  exact ⟨h0.1 (by decide), by decide⟩

/-- C3: when the underlying action raises, the `@Interaction` wrapper
propagates that error unchanged and leaves the interaction log exactly as it
was before the call; a log entry can only ever be appended when the action
returned successfully. -/
theorem interaction_error_not_logged {E A : Type} (runHeatmapReport : Bool)
    (type pageObjectName : String) (boundingBox : Option BoundingBox)
    (shot : ScreenshotTracker) (timestamp : ℚ) (action : Except E A) (st : HeatmapState) :
    (∀ e : E, action = .error e →
      (interactionWrapper runHeatmapReport type pageObjectName boundingBox shot timestamp
          action st).1 = .error e ∧
      (interactionWrapper runHeatmapReport type pageObjectName boundingBox shot timestamp
          action st).2.logs = st.logs) ∧
    ((interactionWrapper runHeatmapReport type pageObjectName boundingBox shot timestamp
          action st).2.logs ≠ st.logs → ∃ a : A, action = .ok a) := by
  cases action with
  | error e =>
    constructor
    · intro e' he
      cases he
      exact ⟨rfl, rfl⟩
    · intro hlog
      exact absurd rfl hlog
  | ok a =>
    constructor
    · intro e' he
      cases he
    · intro _
      exact ⟨a, rfl⟩

/-- C3 witness: a failing click (error `"boom"`) with the heatmap report on
and a resolvable bounding box propagates the error and appends nothing. -/
theorem interaction_error_not_logged_witness :
    ((Except.error "boom" : Except String Unit) = Except.error "boom") ∧
    (interactionWrapper true "click" "HomePage" (some ⟨1, 2, 3, 4⟩) ⟨"s.png", ⟨0, 0⟩⟩ 0
        (Except.error "boom" : Except String Unit) ⟨[], []⟩).1 = Except.error "boom" ∧
    (interactionWrapper true "click" "HomePage" (some ⟨1, 2, 3, 4⟩) ⟨"s.png", ⟨0, 0⟩⟩ 0
        (Except.error "boom" : Except String Unit) ⟨[], []⟩).2.logs = [] := by
  have h :=
    (interaction_error_not_logged true "click" "HomePage" (some ⟨1, 2, 3, 4⟩) ⟨"s.png", ⟨0, 0⟩⟩ 0
        (Except.error "boom" : Except String Unit) ⟨[], []⟩).1 "boom" rfl
  exact ⟨rfl, h.1, h.2⟩

theorem alookup_mergeScreenshotEntries (agg entries : List (String × ScreenshotTracker))
    (k : String) :
    alookup (mergeScreenshotEntries agg entries) k = (alookup agg k).or (alookup entries k) := by
  induction entries generalizing agg with
  | nil => simp [mergeScreenshotEntries, alookup]
  | cons kv rest ih =>
    obtain ⟨k', v⟩ := kv
    show alookup (mergeScreenshotEntries _ rest) k = _
    rw [ih]
    cases hl : alookup agg k' with
    | some w =>
      simp only [hl, Option.isSome_some, if_pos trivial]
      by_cases hk : k' = k
      · subst hk
        simp [alookup, hl]
      · simp [alookup, hk]
    | none =>
      simp only [hl, Option.isSome_none, Bool.false_eq_true, if_neg, not_false_eq_true]
      by_cases hk : k' = k
      · subst hk
        simp [alookup_append, alookup, hl]
      · simp [alookup_append, alookup, hk]

theorem alookup_foldl_mergeScreenshotEntries
    (files : List (List (String × ScreenshotTracker)))
    (agg : List (String × ScreenshotTracker)) (k : String) :
    alookup (files.foldl mergeScreenshotEntries agg) k =
      (alookup agg k).or (alookup files.flatten k) := by
  induction files generalizing agg with
  | nil => simp [alookup]
  | cons f fs ih =>
    rw [List.foldl_cons, ih, alookup_mergeScreenshotEntries, List.flatten_cons,
      alookup_append, Option.or_assoc]

/-- C9: within one worker `takeHeatmapScreenshot` creates at most one tracker
record per logical object name — created on the first interaction, never
overwritten, so two interactions against a fresh name leave exactly one record
holding the first capture — and the cross-worker screenshot merge keeps, for
every name, the first-seen record over the concatenated worker files. -/
theorem screenshot_record_first_wins :
    (∀ (tracker : List (String × ScreenshotTracker)) (name : String)
        (r1 r2 : ScreenshotTracker),
      (alookup tracker name = none →
        ((takeHeatmapScreenshot (takeHeatmapScreenshot tracker name r1) name r2).map
            Prod.fst).count name = 1 ∧
        alookup (takeHeatmapScreenshot (takeHeatmapScreenshot tracker name r1) name r2) name
          = some r1) ∧
      (∀ r0, alookup tracker name = some r0 → takeHeatmapScreenshot tracker name r2 = tracker) ∧
      ((tracker.map Prod.fst).Nodup →
        ((takeHeatmapScreenshot tracker name r2).map Prod.fst).Nodup)) ∧
    (∀ (files : List (List (String × ScreenshotTracker))) (name : String),
      alookup (aggregateScreenshotMaps files) name = alookup files.flatten name) := by
  constructor
  · intro tracker name r1 r2
    refine ⟨?_, ?_, ?_⟩
    · intro hnone
      have h1 : takeHeatmapScreenshot tracker name r1 = tracker ++ [(name, r1)] := by
        rw [takeHeatmapScreenshot, hnone]
        simp
      have hl1 : alookup (tracker ++ [(name, r1)]) name = some r1 := by
        rw [alookup_append, hnone]
        simp [alookup]
      have h2 : takeHeatmapScreenshot (tracker ++ [(name, r1)]) name r2 =
          tracker ++ [(name, r1)] := by
        rw [takeHeatmapScreenshot, hl1]
        simp
      rw [h1, h2, hl1]
      refine ⟨?_, rfl⟩
      have hnot : name ∉ tracker.map Prod.fst := (alookup_eq_none_iff tracker name).mp hnone
      rw [List.map_append, List.count_append, List.count_eq_zero.mpr hnot]
      simp
    · intro r0 hsome
      rw [takeHeatmapScreenshot, hsome]
      simp
    · intro hnd
      rw [takeHeatmapScreenshot]
      cases hl : alookup tracker name with
      | some v => simpa using hnd
      | none =>
        have hnot : name ∉ tracker.map Prod.fst := (alookup_eq_none_iff tracker name).mp hl
        simp [List.nodup_append, hnd, hnot]
  · intro files name
    rw [aggregateScreenshotMaps, alookup_foldl_mergeScreenshotEntries]
    simp [alookup]

/-- C9 witness: two interactions against the fresh name `"Home"` leave exactly
one record, holding the first capture; merging two worker files that both
track `"Home"` keeps worker A's record. -/
theorem screenshot_record_first_wins_witness :
    (alookup ([] : List (String × ScreenshotTracker)) "Home" = none ∧
      ((takeHeatmapScreenshot (takeHeatmapScreenshot [] "Home" ⟨"a.png", ⟨0, 0⟩⟩) "Home"
          ⟨"b.png", ⟨5, 5⟩⟩).map Prod.fst).count "Home" = 1 ∧
      alookup (takeHeatmapScreenshot (takeHeatmapScreenshot [] "Home" ⟨"a.png", ⟨0, 0⟩⟩) "Home"
          ⟨"b.png", ⟨5, 5⟩⟩) "Home" = some ⟨"a.png", ⟨0, 0⟩⟩) ∧
    alookup (aggregateScreenshotMaps
        [[("Home", ⟨"a.png", ⟨0, 0⟩⟩)], [("Home", ⟨"b.png", ⟨5, 5⟩⟩)]]) "Home"
      = some ⟨"a.png", ⟨0, 0⟩⟩ := by
  have h1 := ((screenshot_record_first_wins.1 [] "Home" ⟨"a.png", ⟨0, 0⟩⟩
      ⟨"b.png", ⟨5, 5⟩⟩).1 rfl)
  have h2 := screenshot_record_first_wins.2
      [[("Home", ⟨"a.png", ⟨0, 0⟩⟩)], [("Home", ⟨"b.png", ⟨5, 5⟩⟩)]] "Home"
  refine ⟨⟨rfl, h1.1, h1.2⟩, ?_⟩
  rw [h2]
  decide

/-! ## Summarizer lemmas -/

theorem foldl_summarizeStep_box (init : BoxSummary) (es : List InteractionLog) :
    (es.foldl summarizeStep init).boundingBox = init.boundingBox := by
  induction es generalizing init with
  | nil => rfl
  | cons e rest ih => rw [List.foldl_cons, ih]; rfl

theorem foldl_summarizeStep_value (init : BoxSummary) (es : List InteractionLog) :
    (es.foldl summarizeStep init).value = init.value + es.length := by
  induction es generalizing init with
  | nil => rfl
  | cons e rest ih =>
    rw [List.foldl_cons, ih]
    simp [summarizeStep]
    omega

theorem sum_bumpCount (c : List (String × Nat)) (k : String) :
    ((bumpCount c k).map Prod.snd).sum = (c.map Prod.snd).sum + 1 := by
  cases hl : alookup c k with
  | none => simp [bumpCount, upsert, hl]
  | some n =>
    rw [bumpCount, upsert, hl]
    have h := sum_map_aupdate (fun n => n + 1) (fun n : Nat => n) hl
    simp only [List.map_map] at *
    have he : (Prod.snd : String × Nat → Nat) = fun kv => kv.2 := rfl
    rw [he]
    omega

theorem foldl_summarizeStep_countsum (init : BoxSummary) (es : List InteractionLog) :
    ((es.foldl summarizeStep init).counts.map Prod.snd).sum =
      (init.counts.map Prod.snd).sum + es.length := by
  induction es generalizing init with
  | nil => rfl
  | cons e rest ih =>
    rw [List.foldl_cons, ih]
    simp [summarizeStep, sum_bumpCount]
    omega

theorem mem_summarizeFold_eq (events : List InteractionLog) {kv : BoundingBox × BoxSummary}
    (h : kv ∈ groupFold (fun e => e.boundingBox) summarizeInit summarizeStep events) :
    kv.2 = (events.filter (fun e => decide (e.boundingBox = kv.1))).foldl summarizeStep
        (summarizeInit kv.1) := by
  have hl := alookup_of_mem_of_nodup (groupFold_keys_nodup _ _ _ events) h
  rw [alookup_groupFold] at hl
  by_cases hfl : (events.filter (fun e => decide (e.boundingBox = kv.1))).isEmpty
  · rw [if_pos hfl] at hl
    cases hl
  · rw [if_neg hfl] at hl
    exact (Option.some.injEq _ _ ▸ hl).symm

theorem sum_value_summarizeGroupFold (events : List InteractionLog) :
    ((groupFold (fun e => e.boundingBox) summarizeInit summarizeStep events).map
        (fun kv => kv.2.value)).sum = events.length := by
  induction events using List.reverseRecOn with
  | nil => rfl
  | append_singleton l b ih =>
    rw [groupFold_append_singleton]
    cases hl : alookup (groupFold (fun e => e.boundingBox) summarizeInit summarizeStep l)
        b.boundingBox with
    | none =>
      rw [upsert, hl]
      simp only [List.map_append, List.sum_append, ih]
      simp [summarizeStep, summarizeInit]
    | some s =>
      rw [upsert, hl]
      have h := sum_map_aupdate (fun a => summarizeStep a b) (fun s : BoxSummary => s.value) hl
      rw [ih] at h
      simp only [] at h
      have hv : (summarizeStep s b).value = s.value + 1 := rfl
      simp only [List.length_append, List.length_cons, List.length_nil]
      omega

/-- C10: `summarizeEvents` produces exactly one summary per distinct bounding
box of the input; each summary's `value` equals both the number of input
events carrying that box and the sum of its per-type counts; and the values
over all summaries sum to the input length — no event is dropped or counted
twice by the per-distinct-box weighting. -/
theorem summarizeEvents_weights (events : List InteractionLog) :
    ((summarizeEvents events).map (fun s => s.boundingBox)).Nodup ∧
    (∀ b : BoundingBox,
      (∃ s ∈ summarizeEvents events, s.boundingBox = b) ↔
        b ∈ events.map (fun e => e.boundingBox)) ∧
    (∀ s ∈ summarizeEvents events,
      s.value = events.countP (fun e => decide (e.boundingBox = s.boundingBox)) ∧
      s.value = (s.counts.map Prod.snd).sum) ∧
    ((summarizeEvents events).map (fun s => s.value)).sum = events.length := by
  have hbox : ∀ kv ∈ groupFold (fun e => e.boundingBox) summarizeInit summarizeStep events,
      kv.2.boundingBox = kv.1 := by
    intro kv hkv
    rw [mem_summarizeFold_eq events hkv, foldl_summarizeStep_box]
    rfl
  have hmap : (summarizeEvents events).map (fun s => s.boundingBox) =
      (groupFold (fun e => e.boundingBox) summarizeInit summarizeStep events).map Prod.fst := by
    rw [summarizeEvents, List.map_map]
    exact List.map_congr_left (fun kv hkv => hbox kv hkv)
  refine ⟨?_, ?_, ?_, ?_⟩
  · rw [hmap]
    exact groupFold_keys_nodup _ _ _ events
  · intro b
    constructor
    · intro ⟨s, hs, hsb⟩
      have : b ∈ (summarizeEvents events).map (fun s => s.boundingBox) :=
        List.mem_map.mpr ⟨s, hs, hsb⟩
      rw [hmap, mem_keys_groupFold] at this
      obtain ⟨e, he, heb⟩ := this
      exact List.mem_map.mpr ⟨e, he, heb⟩
    · intro hb
      obtain ⟨e, he, heb⟩ := List.mem_map.mp hb
      have : b ∈ (summarizeEvents events).map (fun s => s.boundingBox) := by
        rw [hmap, mem_keys_groupFold]
        exact ⟨e, he, heb⟩
      obtain ⟨s, hs, hsb⟩ := List.mem_map.mp this
      exact ⟨s, hs, hsb⟩
  · intro s hs
    obtain ⟨kv, hkv, hkvs⟩ := List.mem_map.mp hs
    have heq := mem_summarizeFold_eq events hkv
    have hb := hbox kv hkv
    subst hkvs
    rw [hb]
    constructor
    · rw [heq, foldl_summarizeStep_value, List.countP_eq_length_filter]
      simp [summarizeInit]
    · rw [heq, foldl_summarizeStep_value, foldl_summarizeStep_countsum]
      simp [summarizeInit]
  · rw [summarizeEvents, List.map_map]
    exact sum_value_summarizeGroupFold events

/-- C10 witness: three events — two clicks on one box, one fill on another —
summarize to two summaries with values `2` and `1`, matching the per-box event
counts, the per-type count sums, and a total of `3`. -/
theorem summarizeEvents_weights_witness :
    ((summarizeEvents
        [⟨"click", "P", 0, ⟨1, 1, 2, 2⟩⟩, ⟨"fill", "P", 1, ⟨9, 9, 2, 2⟩⟩,
         ⟨"click", "P", 2, ⟨1, 1, 2, 2⟩⟩]).map (fun s => s.value)).sum = 3 ∧
    (∃ s ∈ summarizeEvents
        [⟨"click", "P", 0, ⟨1, 1, 2, 2⟩⟩, ⟨"fill", "P", 1, ⟨9, 9, 2, 2⟩⟩,
         ⟨"click", "P", 2, ⟨1, 1, 2, 2⟩⟩], s.boundingBox = ⟨1, 1, 2, 2⟩) := by
  have h := summarizeEvents_weights
      [⟨"click", "P", 0, ⟨1, 1, 2, 2⟩⟩, ⟨"fill", "P", 1, ⟨9, 9, 2, 2⟩⟩,
       ⟨"click", "P", 2, ⟨1, 1, 2, 2⟩⟩]
  refine ⟨?_, ?_⟩
  · rw [h.2.2.2]
    rfl
  · exact (h.2.1 ⟨1, 1, 2, 2⟩).mpr (by decide)

/-! ## Heatmap generation lemmas -/

theorem foldl_append_singleton_eq {β : Type} (xs acc : List β) :
    xs.foldl (fun l e => l ++ [e]) acc = acc ++ xs := by
  induction xs generalizing acc with
  | nil => simp
  | cons x rest ih => simp [ih]

theorem mem_groupLogsBy_eq (arr : List InteractionLog) {name : String}
    {logs : List InteractionLog} (h : (name, logs) ∈ groupLogsBy arr) :
    logs = arr.filter (fun e => decide (e.pageObjectName = name)) := by
  have h' : (name, logs) ∈ groupFold (fun e : InteractionLog => e.pageObjectName)
      (fun _ => ([] : List InteractionLog)) (fun l e => l ++ [e]) arr := h
  have hl := alookup_of_mem_of_nodup (groupFold_keys_nodup _ _ _ arr) h'
  rw [alookup_groupFold] at hl
  by_cases hfl : (arr.filter (fun e => decide (e.pageObjectName = name))).isEmpty
  · rw [if_pos hfl] at hl
    cases hl
  · rw [if_neg hfl] at hl
    have h2 := Option.some.inj hl
    rw [← h2, foldl_append_singleton_eq]
    simp

theorem generateHeatmapsAux_ok_mem
    {groups : List (String × List InteractionLog)}
    {screenshots : List (String × ScreenshotTracker)}
    {out : List (String × List HeatmapPoint)}
    (hok : generateHeatmapsAux groups screenshots = .ok out)
    {name : String} {pts : List HeatmapPoint} (hmem : (name, pts) ∈ out) :
    ∃ logs, (name, logs) ∈ groups ∧ ∃ sr, alookup screenshots name = some sr ∧
      pts = (summarizeEvents logs).map (heatPoint sr.boundingBox) := by
  induction groups generalizing out with
  | nil =>
    rw [generateHeatmapsAux] at hok
    cases hok
    simp at hmem
  | cons g rest ih =>
    obtain ⟨gname, glogs⟩ := g
    rw [generateHeatmapsAux] at hok
    cases hsr : alookup screenshots gname with
    | none =>
      rw [hsr] at hok
      cases hok
    | some sr =>
      rw [hsr] at hok
      cases hrest : generateHeatmapsAux rest screenshots with
      | error e =>
        rw [hrest] at hok
        cases hok
      | ok out' =>
        rw [hrest] at hok
        cases hok
        rcases List.mem_cons.mp hmem with heq | hmem'
        · obtain ⟨hn, hp⟩ := Prod.mk.injEq .. |>.mp heq
          subst hn
          exact ⟨glogs, List.mem_cons_self _ _, sr, hsr, hp⟩
        · obtain ⟨logs, hg, sr', h1, h2⟩ := ih hrest hmem'
          exact ⟨logs, List.mem_cons_of_mem _ hg, sr', h1, h2⟩

/-- C7: every point group emitted by a successful heatmap generation comes
from a tracked screenshot record, and each rendered point is the summary's
bounding-box center re-projected by subtracting the record's origin:
`{x: round(x - ox + width/2), y: round(y - oy + height/2)}`. -/
theorem heatmap_projection (interactions : List InteractionLog)
    (screenshots : List (String × ScreenshotTracker))
    (out : List (String × List HeatmapPoint)) (name : String) (pts : List HeatmapPoint)
    (hok : generateHeatmaps interactions screenshots = .ok out)
    (hmem : (name, pts) ∈ out) :
    ∃ sr, alookup screenshots name = some sr ∧
      pts = (summarizeEvents (interactions.filter
          (fun e => decide (e.pageObjectName = name)))).map
        (fun s =>
          ({ x := round (s.boundingBox.x - sr.boundingBox.x + s.boundingBox.width / 2)
             y := round (s.boundingBox.y - sr.boundingBox.y + s.boundingBox.height / 2)
             counts := s.counts
             value := s.value } : HeatmapPoint)) := by
  rw [generateHeatmaps] at hok
  obtain ⟨logs, hg, sr, h1, h2⟩ := generateHeatmapsAux_ok_mem hok hmem
  refine ⟨sr, h1, ?_⟩
  rw [h2, mem_groupLogsBy_eq _ hg]
  rfl

/-- C7 witness: the spec's projection scenario — origin `{x:100, y:50}`,
bounding box `{x:140, y:90, width:20, height:10}` — yields the point
`{x:50, y:45}`. -/
theorem heatmap_projection_witness :
    generateHeatmaps [⟨"click", "Home", 0, ⟨140, 90, 20, 10⟩⟩]
        [("Home", ⟨"s.png", ⟨100, 50⟩⟩)] =
      .ok [("Home", [⟨50, 45, [("click", 1)], 1⟩])] ∧
    ("Home", [(⟨50, 45, [("click", 1)], 1⟩ : HeatmapPoint)]) ∈
      [("Home", [(⟨50, 45, [("click", 1)], 1⟩ : HeatmapPoint)])] ∧
    ∃ sr, alookup [("Home", (⟨"s.png", ⟨100, 50⟩⟩ : ScreenshotTracker))] "Home" = some sr ∧
      [(⟨50, 45, [("click", 1)], 1⟩ : HeatmapPoint)] =
        (summarizeEvents ([⟨"click", "Home", 0, ⟨140, 90, 20, 10⟩⟩].filter
            (fun e => decide (e.pageObjectName = "Home")))).map
          (fun s =>
            ({ x := round (s.boundingBox.x - sr.boundingBox.x + s.boundingBox.width / 2)
               y := round (s.boundingBox.y - sr.boundingBox.y + s.boundingBox.height / 2)
               counts := s.counts
               value := s.value } : HeatmapPoint)) := by
  have hok : generateHeatmaps [⟨"click", "Home", 0, ⟨140, 90, 20, 10⟩⟩]
      [("Home", ⟨"s.png", ⟨100, 50⟩⟩)] = .ok [("Home", [⟨50, 45, [("click", 1)], 1⟩])] := by
    have hsum : summarizeEvents [⟨"click", "Home", 0, ⟨140, 90, 20, 10⟩⟩] =
        [⟨⟨140, 90, 20, 10⟩, [("click", 1)], 1⟩] := by decide
    show Except.ok _ = _
    norm_num [hsum, heatPoint, round_eq]
  refine ⟨hok, List.mem_singleton.mpr rfl, ?_⟩
  exact heatmap_projection _ _ _ "Home" _ hok (List.mem_singleton.mpr rfl)

theorem generateHeatmapsAux_error_of_missing
    (groups : List (String × List InteractionLog))
    (screenshots : List (String × ScreenshotTracker)) (name : String)
    (hmem : name ∈ groups.map Prod.fst) (hnone : alookup screenshots name = none) :
    ∃ msg, generateHeatmapsAux groups screenshots = .error msg := by
  induction groups with
  | nil => simp at hmem
  | cons g rest ih =>
    obtain ⟨gname, glogs⟩ := g
    cases hsr : alookup screenshots gname with
    | none =>
      exact ⟨_, by rw [generateHeatmapsAux, hsr]⟩
    | some sr =>
      have hne : gname ≠ name := by
        intro he
        rw [he, hnone] at hsr
        cases hsr
      have hmem' : name ∈ rest.map Prod.fst := by
        rcases List.mem_cons.mp hmem with he | hm
        · exact absurd he.symm hne
        · exact hm
      obtain ⟨msg, hmsg⟩ := ih hmem'
      refine ⟨msg, ?_⟩
      rw [generateHeatmapsAux, hsr, hmsg]

/-- C5 counterexample: object `"A"` has logged interactions but no screenshot
record, object `"B"` has both.  The claim says the `"A"` group is skipped and
`"B"` is still rendered; instead `offsets!.x` throws on the `"A"` group, the
`try`/`catch` rethrows, and the whole generation aborts — no group is
produced at all. -/
theorem generateHeatmaps_missing_record_aborts_concrete :
    generateHeatmaps
        [⟨"click", "A", 0, ⟨1, 1, 2, 2⟩⟩, ⟨"click", "B", 1, ⟨3, 3, 2, 2⟩⟩]
        [("B", ⟨"b.png", ⟨0, 0⟩⟩)] =
      .error "Heatmap report generation failed: Cannot read properties of undefined" ∧
    ∀ out, generateHeatmaps
        [⟨"click", "A", 0, ⟨1, 1, 2, 2⟩⟩, ⟨"click", "B", 1, ⟨3, 3, 2, 2⟩⟩]
        [("B", ⟨"b.png", ⟨0, 0⟩⟩)] ≠ .ok out := by
  have h1 : generateHeatmaps
      [⟨"click", "A", 0, ⟨1, 1, 2, 2⟩⟩, ⟨"click", "B", 1, ⟨3, 3, 2, 2⟩⟩]
      [("B", ⟨"b.png", ⟨0, 0⟩⟩)] =
      .error "Heatmap report generation failed: Cannot read properties of undefined" := rfl
  refine ⟨h1, ?_⟩
  intro out hc
  rw [h1] at hc
  exact Except.noConfusion hc

/-- C5 (amended): when any interaction group's logical object name has no
`ScreenshotTracker` record in the aggregated screenshot map, heatmap report
generation does not skip that group — it aborts the whole report with an
error. -/
theorem generateHeatmaps_missing_record_errors (interactions : List InteractionLog)
    (screenshots : List (String × ScreenshotTracker)) (name : String)
    (hmem : name ∈ (groupLogsBy interactions).map Prod.fst)
    (hnone : alookup screenshots name = none) :
    ∃ msg, generateHeatmaps interactions screenshots = .error msg := by
  rw [generateHeatmaps]
  exact generateHeatmapsAux_error_of_missing _ _ name hmem hnone

/-- C5 witness: the two-group input of the counterexample satisfies the
hypotheses — `"A"` is a group and has no screenshot record — and generation
indeed errors. -/
theorem generateHeatmaps_missing_record_errors_witness :
    ("A" ∈ (groupLogsBy
        [⟨"click", "A", 0, ⟨1, 1, 2, 2⟩⟩, ⟨"click", "B", 1, ⟨3, 3, 2, 2⟩⟩]).map Prod.fst) ∧
    alookup [("B", (⟨"b.png", ⟨0, 0⟩⟩ : ScreenshotTracker))] "A" = none ∧
    ∃ msg, generateHeatmaps
        [⟨"click", "A", 0, ⟨1, 1, 2, 2⟩⟩, ⟨"click", "B", 1, ⟨3, 3, 2, 2⟩⟩]
        [("B", ⟨"b.png", ⟨0, 0⟩⟩)] = .error msg := by
  refine ⟨by decide, by decide, ?_⟩
  exact generateHeatmaps_missing_record_errors _ _ "A" (by decide) (by decide)

/-! ## Aggregation-step lemmas (exactly-once consumption) -/

theorem filter_aupdate {κ α : Type} [DecidableEq κ] (l : List (κ × α)) (k : κ) (f : α → α)
    (p : κ → Bool) (hp : p k = false) :
    (aupdate l k f).filter (fun kv => p kv.1) = l.filter (fun kv => p kv.1) := by
  induction l with
  | nil => rfl
  | cons hd tl ih =>
    obtain ⟨k', v⟩ := hd
    by_cases hk : k' = k
    · subst hk
      simp [aupdate, List.filter_cons, hp]
    · simp [aupdate, hk, List.filter_cons, ih]

theorem filter_putEntry {κ α : Type} [DecidableEq κ] (l : List (κ × α)) (k : κ) (c : α)
    (p : κ → Bool) (hp : p k = false) :
    (putEntry l k c).filter (fun kv => p kv.1) = l.filter (fun kv => p kv.1) := by
  cases hl : alookup l k with
  | none =>
    rw [putEntry, hl]
    simp [List.filter_append, List.filter_cons, hp]
  | some v =>
    rw [putEntry, hl]
    exact filter_aupdate l k _ p hp

theorem filter_not_filter {α : Type} (l : List α) (p : α → Bool) :
    (l.filter (fun x => !(p x))).filter p = [] := by
  rw [List.filter_eq_nil_iff]
  intro a ha
  have h := List.of_mem_filter ha
  simp at h
  simp [h]

theorem filter_not_eq_self_of_filter_nil {α : Type} {l : List α} {p : α → Bool}
    (h : l.filter p = []) : l.filter (fun x => !(p x)) = l := by
  rw [List.filter_eq_self]
  intro a ha
  have hpa := List.filter_eq_nil_iff.mp h a ha
  cases hq : p a with
  | true => exact absurd hq hpa
  | false => rfl

theorem aggregateInteractions_no_worker_files (dir : List (String × List InteractionLog)) :
    (aggregateInteractions dir).filter (fun kv => isWorkerInteractionsFile kv.1) = [] := by
  by_cases hf : dir.filter (fun kv => isWorkerInteractionsFile kv.1) = []
  · rw [aggregateInteractions]
    simp only [hf, if_pos trivial]
  · rw [aggregateInteractions]
    simp only [hf, if_neg, not_false_eq_true]
    rw [filter_putEntry _ _ _ _ (by decide)]
    exact filter_not_filter dir _

theorem aggregateInteractions_idempotent (dir : List (String × List InteractionLog)) :
    aggregateInteractions (aggregateInteractions dir) = aggregateInteractions dir := by
  have hw := aggregateInteractions_no_worker_files dir
  rw [aggregateInteractions]
  simp only [hw, if_pos trivial]

theorem aggregateScreenshots_no_worker_files
    (dir : List (String × List (String × ScreenshotTracker))) :
    (aggregateScreenshots dir).filter (fun kv => isWorkerScreenshotsFile kv.1) = [] := by
  by_cases hf : dir.filter (fun kv => isWorkerScreenshotsFile kv.1) = []
  · rw [aggregateScreenshots]
    simp only [hf, if_pos trivial]
  · rw [aggregateScreenshots]
    simp only [hf, if_neg, not_false_eq_true]
    rw [filter_putEntry _ _ _ _ (by decide)]
    exact filter_not_filter dir _

theorem aggregateScreenshots_idempotent
    (dir : List (String × List (String × ScreenshotTracker))) :
    aggregateScreenshots (aggregateScreenshots dir) = aggregateScreenshots dir := by
  have hw := aggregateScreenshots_no_worker_files dir
  rw [aggregateScreenshots]
  simp only [hw, if_pos trivial]

theorem aggregateAllTraffic_no_worker_files (dir : List (String × RequestMap)) :
    (aggregateAllTraffic dir).filter (fun kv => isWorkerNetworkFile kv.1) = [] := by
  show (putEntry (dir.filter (fun kv => !(isWorkerNetworkFile kv.1))) networkMergedName
      (mergeRequestMaps ((dir.filter (fun kv => isWorkerNetworkFile kv.1)).map
        Prod.snd))).filter (fun kv => isWorkerNetworkFile kv.1) = []
  rw [filter_putEntry _ _ _ _ (by decide)]
  exact filter_not_filter dir _

theorem aggregateAllTraffic_second_run (dir : List (String × RequestMap)) :
    aggregateAllTraffic (aggregateAllTraffic dir) =
      putEntry (aggregateAllTraffic dir) networkMergedName [] := by
  have hw := aggregateAllTraffic_no_worker_files dir
  have hrem := filter_not_eq_self_of_filter_nil hw
  show putEntry ((aggregateAllTraffic dir).filter (fun kv => !(isWorkerNetworkFile kv.1)))
      networkMergedName
      (mergeRequestMaps (((aggregateAllTraffic dir).filter
        (fun kv => isWorkerNetworkFile kv.1)).map Prod.snd)) = _
  rw [hw, hrem]
  rfl

/-- C2 counterexample: one worker network file with one successful request.
The first `aggregateAllTraffic` run consumes it and writes the merged file;
the second run — with no new worker files — is *not* a no-op for the network
kind: it unconditionally rewrites the merged file with the empty merge of zero
worker maps, so the second run's aggregate differs from the first. -/
theorem aggregateAllTraffic_second_run_not_identical :
    aggregateAllTraffic [("worker-0.json", [("https://x/y", ⟨1, 0, []⟩)])]
      = [("network-traffic-merged.json", [("https://x/y", ⟨1, 0, []⟩)])] ∧
    aggregateAllTraffic (aggregateAllTraffic [("worker-0.json", [("https://x/y", ⟨1, 0, []⟩)])])
      = [("network-traffic-merged.json", [])] ∧
    aggregateAllTraffic (aggregateAllTraffic [("worker-0.json", [("https://x/y", ⟨1, 0, []⟩)])])
      ≠ aggregateAllTraffic [("worker-0.json", [("https://x/y", ⟨1, 0, []⟩)])] := by
  refine ⟨by decide, by decide, ?_⟩
  intro hc
  exact absurd hc (by decide)

/-- C2 (amended): after any `aggregateAllTraffic` / `aggregateInteractions` /
`aggregateScreenshots` run no worker-tagged file of that kind remains; a
second run of the interaction and screenshot aggregators finds nothing to
merge, writes nothing, and leaves the previous aggregate untouched; but a
second run of the network aggregator still writes — it replaces the previous
aggregate with the empty merged map. -/
theorem aggregate_second_run_behavior :
    (∀ dir : List (String × List InteractionLog),
      (aggregateInteractions dir).filter (fun kv => isWorkerInteractionsFile kv.1) = [] ∧
      aggregateInteractions (aggregateInteractions dir) = aggregateInteractions dir) ∧
    (∀ dir : List (String × List (String × ScreenshotTracker)),
      (aggregateScreenshots dir).filter (fun kv => isWorkerScreenshotsFile kv.1) = [] ∧
      aggregateScreenshots (aggregateScreenshots dir) = aggregateScreenshots dir) ∧
    (∀ dir : List (String × RequestMap),
      (aggregateAllTraffic dir).filter (fun kv => isWorkerNetworkFile kv.1) = [] ∧
      aggregateAllTraffic (aggregateAllTraffic dir) =
        putEntry (aggregateAllTraffic dir) networkMergedName []) :=
  ⟨fun dir => ⟨aggregateInteractions_no_worker_files dir, aggregateInteractions_idempotent dir⟩,
   fun dir => ⟨aggregateScreenshots_no_worker_files dir, aggregateScreenshots_idempotent dir⟩,
   fun dir => ⟨aggregateAllTraffic_no_worker_files dir, aggregateAllTraffic_second_run dir⟩⟩

/-- C6: the sandbox contract fails for writes.  Workspace `/ws`; the path
`/ws/report.json` is an existing symlink to `/out/evil.json`, a file outside
the workspace.  `readFileSafe` and `deleteFileSafe` call `assertSafePath` on
the full path and correctly refuse it, but `writeTextFileSafe` asserts safety
only for the parent directory (`createPathSafe(path.dirname(absPath))`) and
then hands the raw path to `fs.writeFileSync`, which follows the symlink: the
write succeeds and physically lands on `/out/evil.json`, outside the
workspace root. -/
theorem writeTextFileSafe_symlink_escape :
    writeTextFileSafe
        ⟨[([], .dir), (["ws"], .dir), (["out"], .dir),
          (["ws", "report.json"], .symlink ["out", "evil.json"]),
          (["out", "evil.json"], .file)]⟩
        ["ws"] ["ws", "report.json"]
      = .ok
          (⟨[([], .dir), (["ws"], .dir), (["out"], .dir),
             (["ws", "report.json"], .symlink ["out", "evil.json"]),
             (["out", "evil.json"], .file)]⟩,
           ["out", "evil.json"]) ∧
    ¬(["out", "evil.json"] = ["ws"] ∨ ["ws"] <+: ["out", "evil.json"]) ∧
    readFileSafe
        ⟨[([], .dir), (["ws"], .dir), (["out"], .dir),
          (["ws", "report.json"], .symlink ["out", "evil.json"]),
          (["out", "evil.json"], .file)]⟩
        ["ws"] ["ws", "report.json"]
      = .error "[SECURITY] Refusing operation: path is outside workspace" ∧
    deleteFileSafe
        ⟨[([], .dir), (["ws"], .dir), (["out"], .dir),
          (["ws", "report.json"], .symlink ["out", "evil.json"]),
          (["out", "evil.json"], .file)]⟩
        ["ws"] ["ws", "report.json"]
      = .error "[SECURITY] Refusing operation: path is outside workspace" := by
  refine ⟨rfl, by decide, rfl, rfl⟩
